import Mathlib

/-!
Verification development for the whoop HTTP proxy's request/response
rewriter (src/http.rs, src/main.rs).

Byte buffers are modelled as a fixed size together with a byte-valued
function on indices; this mirrors a Rust mutable slice whose length never
changes while its contents are shifted in place.  All integer arithmetic
in the source is on usize/u16 values that provably stay far below any
overflow boundary in the modelled paths, so Nat is used throughout; where
the source behaviour at a boundary matters (the guards of the byte editor)
the guard is modelled explicitly.
-/

/-- Model of a Rust mutable byte slice: a length and the byte at each index.
Indices at or beyond size are irrelevant (never read by the model on the
paths the source can take, but total for convenience). -/
structure Buf where
  size : Nat
  data : Nat → Nat

/-- Construct a buffer from a list of bytes, sized to the list. -/
def Buf.ofList (l : List Nat) : Buf := ⟨l.length, fun i => l.getD i 0⟩

/-- Construct a buffer of a given size whose leading bytes come from the
list and whose remaining bytes are zero, like the zero-initialised 1024
byte read buffer in main.rs after reading fewer bytes. -/
def mkBuf (n : Nat) (l : List Nat) : Buf := ⟨n, fun i => l.getD i 0⟩

/-- Checked read, mirroring `buf.get(idx)` on a Rust slice. -/
def Buf.get (b : Buf) (i : Nat) : Option Nat :=
  if i < b.size then some (b.data i) else none

/-- First n bytes of the buffer as a list. -/
def Buf.extract (b : Buf) (n : Nat) : List Nat :=
  (List.range n).map b.data

/-- The subslice from index k on, mirroring `&mut buf[k..]`. -/
def Buf.dropB (b : Buf) (k : Nat) : Buf :=
  ⟨b.size - k, fun i => b.data (k + i)⟩

/-- Reassemble a buffer whose suffix from index k was edited in place. -/
def Buf.joinAt (b : Buf) (k : Nat) (s : Buf) : Buf :=
  ⟨b.size, fun i => if i < k then b.data i else s.data (i - k)⟩

/-- Write one byte, mirroring an index assignment on a slice. -/
def Buf.set (b : Buf) (i v : Nat) : Buf :=
  ⟨b.size, fun j => if j = i then v else b.data j⟩

/-- Write a run of bytes starting at i, mirroring copy_from_slice into
`buf[i..i + xs.length]`. -/
def Buf.setRange (b : Buf) (i : Nat) (xs : List Nat) : Buf :=
  ⟨b.size, fun j => if i ≤ j ∧ j < i + xs.length then xs.getD (j - i) 0 else b.data j⟩

/-- Memmove semantics of `std::ptr::copy(ptr.add(src), ptr.add(dst), count)`
on the slice: every destination index receives the byte the source region
held before the call. -/
def copyWithin (b : Buf) (src dst count : Nat) : Buf :=
  ⟨b.size, fun i => if dst ≤ i ∧ i < dst + count then b.data (i - dst + src) else b.data i⟩

/-- The bounds guard shared by remove_n_from_slice and shift_right in
src/http.rs; when it is false those functions take their out-of-bounds
branch (a debug panic, a silent no-op in release builds). -/
def edit_in_bounds (s : Buf) (index n : Nat) : Bool :=
  decide (index + n < s.size)

/-- Model of remove_n_from_slice (src/http.rs lines 419-430): shift the
bytes after index+n left by n, leaving the final n bytes as they were; out
of bounds, release builds leave the slice untouched. -/
def remove_n_from_slice (s : Buf) (index n : Nat) : Buf :=
  if edit_in_bounds s index n then copyWithin s (index + n) index (s.size - index - n) else s

/-- Model of remove_from_slice (src/http.rs lines 433-435). -/
def remove_from_slice (s : Buf) (index : Nat) : Buf :=
  remove_n_from_slice s index 1

/-- Model of shift_right (src/http.rs lines 438-449): shift the bytes from
index up to size-n right by n. -/
def shift_right (s : Buf) (index n : Nat) : Buf :=
  if edit_in_bounds s index n then copyWithin s index (index + n) (s.size - index - n) else s

/-- Whether the pattern occurs in the buffer starting at index i. -/
def matchesAt (b : Buf) (pat : List Nat) (i : Nat) : Bool :=
  decide (i + pat.length ≤ b.size) &&
    (List.range pat.length).all (fun j => b.data (i + j) == pat.getD j 0)

/-- Leftmost occurrence of a byte pattern, mirroring memchr::memmem::find. -/
def find_sub (b : Buf) (pat : List Nat) : Option Nat :=
  (List.range (b.size + 1)).find? (matchesAt b pat)

/-- Leftmost occurrence of a single byte, mirroring memchr::memchr. -/
def memchr (t : Nat) (b : Buf) : Option Nat :=
  (List.range b.size).find? (fun i => b.data i == t)

/-- ASCII decimal digit test. -/
def isDigit (b : Nat) : Bool := decide (48 ≤ b) && decide (b ≤ 57)

/-- Value of a big-endian ASCII digit string. -/
def digitsVal (l : List Nat) : Nat :=
  l.foldl (fun acc d => acc * 10 + (d - 48)) 0

/-- Model of Rust's unsigned integer FromStr on a byte string: an optional
leading plus sign, then at least one ASCII digit, with the value below the
type's bound (overflow is an error). -/
def parseNatBytes (bound : Nat) (l : List Nat) : Option Nat :=
  let ds := match l with
    | 43 :: rest => rest
    | _ => l
  if ds ≠ [] ∧ ds.all isDigit = true ∧ digitsVal ds < bound then some (digitsVal ds) else none

/-- Model of str::parse::<NonZeroU16>: a u16 parse that rejects zero. -/
def parseNonZeroU16 (l : List Nat) : Option Nat :=
  match parseNatBytes 65536 l with
  | some v => if v = 0 then none else some v
  | none => none

/-- Model of str::parse::<usize> on 64-bit usize. -/
def parseUsize (l : List Nat) : Option Nat :=
  parseNatBytes 18446744073709551616 l

/-- UTF-8 encoding of a byte pushed as a char (`byte as char` is the
Latin-1 code point, which heapless String stores UTF-8 encoded: one byte
below 128, two bytes otherwise). -/
def utf8Enc (b : Nat) : List Nat :=
  if b < 128 then [b] else [192 + b / 64, 128 + b % 64]

/-- Decimal ASCII digits of n, most significant first; n = 0 gives the
empty list, exactly like num_to_bytes in src/main.rs (fuel 5 suffices for
every u16). -/
def digitsAux : Nat → Nat → List Nat
  | 0, _ => []
  | fuel + 1, n => if n = 0 then [] else digitsAux fuel (n / 10) ++ [n % 10 + 48]

/-- Model of num_to_bytes (src/main.rs lines 346-369): the decimal ASCII
bytes of n and how many digits were emitted. -/
def num_to_bytes (n : Nat) : List Nat × Nat :=
  (digitsAux 5 n, (digitsAux 5 n).length)

/-- Model of the Protocol enum (src/http.rs lines 19-24). -/
inductive Protocol where
  | Http
  | Https
deriving DecidableEq, Repr

/-- Model of the Error enum (src/http.rs lines 26-42). -/
inductive Error where
  | InvalidProtocol
  | TooLong
  | MissingPath
  | InvalidPort
  | InvalidRequest
  | UnsupportedHTTPVersion
deriving DecidableEq, Repr

/-- Model of the ContentLength counter (src/http.rs lines 7-11). -/
structure ContentLength where
  content_length : Nat
  bytes_given : Nat
deriving DecidableEq, Repr

/-- Model of ContentLength::full (src/http.rs lines 14-16): the source
literally tests content_length >= bytes_given. -/
def ContentLength.full (c : ContentLength) : Bool :=
  decide (c.content_length ≥ c.bytes_given)

/-- Model of RequestInfo (src/http.rs lines 68-76); addr holds the UTF-8
bytes of the heapless host string. -/
structure RequestInfo where
  protocol : Protocol
  addr : List Nat
  port : Nat
deriving DecidableEq, Repr

/-- The Default impl for RequestInfo (src/http.rs lines 77-85): Https,
empty address, port 80. -/
def RequestInfo.default : RequestInfo := ⟨Protocol.Https, [], 80⟩

/-- Model of the Parser state (src/http.rs lines 87-95). -/
structure Parser where
  past_heading : Bool
  past_host : Bool
  content_len : Option ContentLength
  finished : Bool
  info : Option RequestInfo
deriving DecidableEq, Repr

/-- The Default Parser: all flags false, nothing recorded. -/
def Parser.default : Parser := ⟨false, false, none, false, none⟩

/-- Scheme-default port: 80 for Http, 443 for Https. -/
def defaultPort : Protocol → Nat
  | Protocol.Http => 80
  | Protocol.Https => 443

/-- Port resolution at src/http.rs lines 259-266: parse the collected port
bytes as NonZeroU16, falling back to the scheme default on any parse
failure (empty, zero, non-digits, overflow). -/
def resolvePort (p : Protocol) (portBytes : List Nat) : Nat :=
  match parseNonZeroU16 portBytes with
  | some v => v
  | none => defaultPort p

/-- Cursor state of modify_stream: the buffer plus the idx and removed
counters threaded through the macros. -/
structure HState where
  buf : Buf
  idx : Nat
  removed : Nat

/-- The next! macro: read the byte at idx and advance, if any. -/
def nextAt (st : HState) : HState × Option Nat :=
  match st.buf.get st.idx with
  | none => (st, none)
  | some x => ({ st with idx := st.idx + 1 }, some x)

/-- The remove! macro: peek the byte at idx, delete it from the buffer
(remaining bytes shift left, the slice length is unchanged) and count it
as removed.  idx does not advance. -/
def removeAt (st : HState) : HState × Option Nat :=
  match st.buf.get st.idx with
  | none => (st, none)
  | some x =>
    ({ st with buf := remove_from_slice st.buf st.idx, removed := st.removed + 1 }, some x)

/-- The b_else_err! macro: consume one byte and require it to equal b. -/
def expectNext (st : HState) (b : Nat) (e : Error) : Except (Buf × Error) HState :=
  match nextAt st with
  | (st', some x) => if x = b then Except.ok st' else Except.error (st'.buf, e)
  | (st', none) => Except.error (st'.buf, e)

/-- The remove_b_else_err! macro: remove one byte and require it to equal
b (the byte is removed from the buffer even when the comparison fails). -/
def expectRemove (st : HState) (b : Nat) (e : Error) : Except (Buf × Error) HState :=
  match removeAt st with
  | (st', some x) => if x = b then Except.ok st' else Except.error (st'.buf, e)
  | (st', none) => Except.error (st'.buf, e)

/-- The iter_loop! pattern: advance idx until just past the first
occurrence of target, stopping at the end of the buffer if none.  The fuel
argument is always called with buf.size + 1, which bounds the loop. -/
def skipPast (b : Buf) (target : Nat) : Nat → Nat → Nat
  | 0, i => i
  | fuel + 1, i =>
    match b.get i with
    | none => i
    | some x => if x = target then i + 1 else skipPast b target fuel (i + 1)

/-- The inner remove_iter_loop at src/http.rs lines 245-252 collecting the
port bytes: each iteration removes a byte; a slash ends the loop, a space
is MissingPath, anything else is pushed into the 5-byte port string
(failure to fit is InvalidPort).  Each surviving iteration grows port, so
fuel 70 can never be exhausted before the capacity check fires. -/
def portLoop : Nat → HState → List Nat → Except (Buf × Error) (HState × List Nat)
  | 0, st, port => Except.ok (st, port)
  | fuel + 1, st, port =>
    match removeAt st with
    | (st', none) => Except.ok (st', port)
    | (st', some x) =>
      if x = 47 then Except.ok (st', port)
      else if x = 32 then Except.error (st'.buf, Error.MissingPath)
      else
        let enc := utf8Enc x
        if port.length + enc.length ≤ 5 then portLoop fuel st' (port ++ enc)
        else Except.error (st'.buf, Error.InvalidPort)

/-- The outer remove_iter_loop at src/http.rs lines 239-256 collecting the
host: each iteration removes a byte; a slash ends the loop, a space is
MissingPath, a colon hands over to the port loop, anything else is pushed
into the 64-byte host string (failure to fit is TooLong).  Each surviving
iteration grows addr, so fuel 70 can never be exhausted before the
capacity check fires. -/
def domainLoop : Nat → HState → List Nat → Except (Buf × Error) (HState × List Nat × List Nat)
  | 0, st, addr => Except.ok (st, addr, [])
  | fuel + 1, st, addr =>
    match removeAt st with
    | (st', none) => Except.ok (st', addr, [])
    | (st', some x) =>
      if x = 47 then Except.ok (st', addr, [])
      else if x = 32 then Except.error (st'.buf, Error.MissingPath)
      else if x = 58 then
        match portLoop 70 st' [] with
        | Except.ok (st'', port) => Except.ok (st'', addr, port)
        | Except.error err => Except.error err
      else
        let enc := utf8Enc x
        if addr.length + enc.length ≤ 64 then domainLoop fuel st' (addr ++ enc)
        else Except.error (st'.buf, Error.TooLong)

/-- Lines 202-301 of src/http.rs: parse and strip the request line.  On
success returns the cursor (idx just past the request line's newline) and
the extracted RequestInfo; on error returns the buffer as mutated so far
together with the error. -/
def headingPhase (buf : Buf) : Except (Buf × Error) (HState × RequestInfo) := do
  let st : HState := ⟨buf, 0, 0⟩
  let st := { st with idx := skipPast st.buf 32 (st.buf.size + 1) st.idx }
  let st ← expectNext st 47 Error.InvalidRequest
  let st := if st.buf.get st.idx = some 63 then (removeAt st).1 else st
  let st ← expectRemove st 104 Error.InvalidProtocol
  let st ← expectRemove st 116 Error.InvalidProtocol
  let st ← expectRemove st 116 Error.InvalidProtocol
  let st ← expectRemove st 112 Error.InvalidProtocol
  let (st, proto) :=
    if st.buf.get st.idx = some 115 then ((removeAt st).1, Protocol.Https)
    else (st, Protocol.Http)
  let st ← expectRemove st 58 Error.InvalidProtocol
  let st ← expectRemove st 47 Error.InvalidProtocol
  let st ← expectRemove st 47 Error.InvalidProtocol
  let (st, addr, port) ← domainLoop 70 st []
  let portV := resolvePort proto port
  let st := { st with idx := skipPast st.buf 32 (st.buf.size + 1) st.idx }
  let st ← expectNext st 72 Error.InvalidRequest
  let st ← expectNext st 84 Error.InvalidRequest
  let st ← expectNext st 84 Error.InvalidRequest
  let st ← expectNext st 80 Error.InvalidRequest
  let st ← expectNext st 47 Error.InvalidRequest
  let st ← expectNext st 49 Error.UnsupportedHTTPVersion
  let st ← expectNext st 46 Error.UnsupportedHTTPVersion
  let (st, vb) := nextAt st
  if vb = some 48 ∨ vb = some 49 then
    let st := { st with idx := skipPast st.buf 10 (st.buf.size + 1) st.idx }
    return (st, ⟨proto, addr, portV⟩)
  else Except.error (st.buf, Error.UnsupportedHTTPVersion)

/-- Bytes of the literal Host colon space. -/
def hostHeaderBytes : List Nat := [72, 111, 115, 116, 58, 32]

/-- Bytes of the literal newline Content-Length colon space. -/
def contentLengthBytes : List Nat :=
  [10, 67, 111, 110, 116, 101, 110, 116, 45, 76, 101, 110, 103, 116, 104, 58, 32]

/-- Bytes of the literal Access-Control-Allow-Origin colon space. -/
def corsHeaderBytes : List Nat :=
  [65, 99, 99, 101, 115, 115, 45, 67, 111, 110, 116, 114, 111, 108, 45, 65, 108, 108,
   111, 119, 45, 79, 114, 105, 103, 105, 110, 58, 32]

/-- Bytes of the heading terminator CR LF CR LF. -/
def crlfcrlfBytes : List Nat := [13, 10, 13, 10]

/-- Result of replace_host_header: the edited slice and how many bytes it
removed, an error, or a Rust slice-indexing panic when a write range falls
outside the slice. -/
inductive RhRes where
  | ok (s : Buf) (removed : Nat)
  | fail (e : Error)
  | panic

/-- Model of Parser::replace_host_header (src/http.rs lines 325-376),
acting on the subslice the caller passes.  The copy_from_slice writes
panic when their target range exceeds the slice, which the model surfaces
as the panic result; the shift_right/remove_n_from_slice guards follow the
release build (silent no-op when out of bounds). -/
def replace_host_header (s : Buf) (info : RequestInfo) : RhRes :=
  match find_sub s hostHeaderBytes with
  | none => RhRes.ok s 0
  | some host_idx =>
    let idx := host_idx + 6
    match memchr 13 (s.dropB idx) with
    | none => RhRes.fail Error.InvalidRequest
    | some len_of_old_host =>
      let port := info.port
      let pb := num_to_bytes port
      let is_default_port : Bool :=
        if info.protocol = Protocol.Http then decide (port = 80) else decide (port = 443)
      let len_of_new_host := info.addr.length + (if is_default_port then 0 else 1 + pb.2)
      let sr :=
        if len_of_new_host > len_of_old_host then
          (shift_right s (idx + len_of_old_host) (len_of_new_host - len_of_old_host), 0)
        else if len_of_new_host < len_of_old_host then
          (remove_n_from_slice s (idx + len_of_new_host) (len_of_old_host - len_of_new_host),
            len_of_old_host - len_of_new_host)
        else (s, 0)
      let s := sr.1
      if idx + info.addr.length ≤ s.size then
        let s := s.setRange idx info.addr
        let idx := idx + info.addr.length
        if is_default_port then RhRes.ok s sr.2
        else if idx + 1 ≤ s.size then
          let s := s.set idx 58
          let idx := idx + 1
          if idx + pb.2 ≤ s.size then RhRes.ok (s.setRange idx (pb.1.take pb.2)) sr.2
          else RhRes.panic
        else RhRes.panic
      else RhRes.panic

/-- Model of Parser::get_content_len (src/http.rs lines 378-399) acting on
the subslice past the request line: when the Content-Length literal is
absent the stored counter is untouched; otherwise the declared value is
(re)parsed and the bytes past heading_end in this slice are added to the
counter. -/
def get_content_len (cl : Option ContentLength) (s : Buf) (heading_end : Nat) :
    Except Error (Option ContentLength) :=
  match find_sub s contentLengthBytes with
  | none => Except.ok cl
  | some cidx =>
    let idx := cidx + 17
    let c := cl.getD ⟨0, 0⟩
    match memchr 13 (s.dropB idx) with
    | none => Except.error Error.InvalidRequest
    | some e =>
      match parseUsize ((s.dropB idx).extract e) with
      | none => Except.error Error.InvalidRequest
      | some total =>
        Except.ok (some ⟨total, c.bytes_given + (s.size - heading_end)⟩)

/-- Offset just past the heading terminator in the given slice, or 0 when
the terminator is absent (src/http.rs line 310). -/
def headingEnd (s : Buf) : Nat :=
  match find_sub s crlfcrlfBytes with
  | some i => i + 4
  | none => 0

/-- Result of a modify_stream call: the updated parser and buffer with the
removed count on success, the updated parser and buffer with the error on
failure, or a panic. -/
inductive MRes where
  | ok (p : Parser) (buf : Buf) (removed : Nat)
  | fail (p : Parser) (buf : Buf) (e : Error)
  | panic

/-- Lines 310-322 of src/http.rs: compute heading_end on the slice past
the request line, update the Content-Length counter, decide whether the
stream is finished, and restore info. -/
def finishPhase (p : Parser) (info : RequestInfo) (past_host' : Bool) (b : Buf)
    (idx removed : Nat) : MRes :=
  let he := headingEnd (b.dropB idx)
  match get_content_len p.content_len (b.dropB idx) he with
  | Except.error e =>
    MRes.fail { p with past_heading := true, past_host := past_host', info := none } b e
  | Except.ok cl' =>
    let fin := p.finished || ((he == 0) && (cl'.map ContentLength.full).getD false) ||
      ((he != 0) && cl'.isNone)
    MRes.ok
      { past_heading := true, past_host := past_host', content_len := cl',
        finished := fin, info := some info } b removed

/-- Model of Parser::modify_stream (src/http.rs lines 99-323). -/
def Parser.modify_stream (p : Parser) (buf : Buf) : MRes :=
  if p.finished then MRes.ok p buf 0
  else
    let info0 := p.info.getD RequestInfo.default
    match (if p.past_heading then Except.ok ((⟨buf, 0, 0⟩ : HState), info0)
           else headingPhase buf) with
    | Except.error (b', e) => MRes.fail { p with info := none } b' e
    | Except.ok (st, info) =>
      match (if p.past_host then RhRes.ok (st.buf.dropB st.idx) 0
             else replace_host_header (st.buf.dropB st.idx) info) with
      | RhRes.panic => MRes.panic
      | RhRes.fail e =>
        MRes.fail { p with past_heading := true, info := none } st.buf e
      | RhRes.ok s' r =>
        let b2 := st.buf.joinAt st.idx s'
        let past_host' := p.past_host || decide (r ≠ 0)
        finishPhase p info past_host' b2 st.idx (st.removed + r)

/-- Model of modify_response (src/http.rs lines 402-416). -/
def modify_response (r : Buf) : Bool × Buf :=
  match find_sub r corsHeaderBytes with
  | none => (false, r)
  | some st =>
    let start := st + 29
    match memchr 10 (r.dropB start) with
    | none => (false, r)
    | some e => (true, remove_n_from_slice (r.set start 42) (start + 1) (e - 1))

/-- Parser recorded in a modify_stream result, when it returned at all. -/
def MRes.parserOf : MRes → Option Parser
  | MRes.ok p _ _ => some p
  | MRes.fail p _ _ => some p
  | MRes.panic => none

/-- Error recorded in a modify_stream result. -/
def MRes.errOf : MRes → Option Error
  | MRes.fail _ _ e => some e
  | _ => none

/-- Removed count of a successful modify_stream result. -/
def MRes.removedOf : MRes → Option Nat
  | MRes.ok _ _ r => some r
  | _ => none

/-- First n buffer bytes of a modify_stream result, when it returned. -/
def MRes.bufListOf (n : Nat) : MRes → Option (List Nat)
  | MRes.ok _ b _ => some (b.extract n)
  | MRes.fail _ b _ => some (b.extract n)
  | MRes.panic => none

/-- Scenario S1 of the spec: the 47 read bytes of the request
GET slash https colon slash slash example.com slash space HTTP/1.1 CRLF
Host colon space x CRLF CRLF. -/
def reqS1Bytes : List Nat :=
  [71, 69, 84, 32, 47, 104, 116, 116, 112, 115, 58, 47, 47, 101, 120, 97, 109, 112,
   108, 101, 46, 99, 111, 109, 47, 32, 72, 84, 84, 80, 47, 49, 46, 49, 13, 10,
   72, 111, 115, 116, 58, 32, 120, 13, 10, 13, 10]

/-- The S1 request placed at the front of the zero-initialised 1024 byte
read buffer, exactly as main.rs passes it to modify_stream. -/
def bufS1 : Buf := mkBuf 1024 reqS1Bytes

/-- The spec's expected S1 rewrite: GET slash space HTTP/1.1 CRLF Host
colon space example.com CRLF CRLF, 37 bytes. -/
def rewrittenS1Bytes : List Nat :=
  [71, 69, 84, 32, 47, 32, 72, 84, 84, 80, 47, 49, 46, 49, 13, 10,
   72, 111, 115, 116, 58, 32, 101, 120, 97, 109, 112, 108, 101, 46, 99, 111, 109,
   13, 10, 13, 10]

/-- A complete request whose Content-Length body byte arrives in the same
buffer as the heading terminator: GET of http on host e with
Content-Length 1 and the single body byte Z, 56 bytes. -/
def reqCLBytes : List Nat :=
  [71, 69, 84, 32, 47, 104, 116, 116, 112, 58, 47, 47, 101, 47, 32, 72, 84, 84,
   80, 47, 49, 46, 49, 13, 10,
   72, 111, 115, 116, 58, 32, 120, 13, 10,
   67, 111, 110, 116, 101, 110, 116, 45, 76, 101, 110, 103, 116, 104, 58, 32, 49, 13, 10,
   13, 10, 90]

/-- Scenario S5 of the spec: HTTP/1.1 200 OK CRLF
Access-Control-Allow-Origin colon space null CRLF CRLF x, 55 bytes. -/
def respS5Bytes : List Nat :=
  [72, 84, 84, 80, 47, 49, 46, 49, 32, 50, 48, 48, 32, 79, 75, 13, 10,
   65, 99, 99, 101, 115, 115, 45, 67, 111, 110, 116, 114, 111, 108, 45, 65, 108,
   108, 111, 119, 45, 79, 114, 105, 103, 105, 110, 58, 32,
   110, 117, 108, 108, 13, 10, 13, 10, 120]

/-- What the source actually produces for S5: the star, then the newline
pulled next to it (the carriage return is gone), then the tail shifted
left with the final four bytes left behind by remove_n_from_slice. -/
def respS5AfterBytes : List Nat :=
  [72, 84, 84, 80, 47, 49, 46, 49, 32, 50, 48, 48, 32, 79, 75, 13, 10,
   65, 99, 99, 101, 115, 115, 45, 67, 111, 110, 116, 114, 111, 108, 45, 65, 108,
   108, 111, 119, 45, 79, 114, 105, 103, 105, 110, 58, 32,
   42, 10, 13, 10, 120, 10, 13, 10, 120]

/-- A request whose URL carries the explicit port 0: GET of https on host
e.com colon 0, 43 bytes. -/
def reqPortZeroBytes : List Nat :=
  [71, 69, 84, 32, 47, 104, 116, 116, 112, 115, 58, 47, 47, 101, 46, 99, 111, 109,
   58, 48, 47, 32, 72, 84, 84, 80, 47, 49, 46, 49, 13, 10,
   72, 111, 115, 116, 58, 32, 120, 13, 10, 13, 10]

/-- A buffer holding newline Content-Length colon space 5 with no
terminating carriage return, 18 bytes. -/
def clNoCRBytes : List Nat :=
  [10, 67, 111, 110, 116, 101, 110, 116, 45, 76, 101, 110, 103, 116, 104, 58, 32, 53]

/-- A parser that has finished a request line on an earlier read: past the
heading and the host, no Content-Length yet, info recorded. -/
def pAfterHeading : Parser :=
  ⟨true, true, none, false, some ⟨Protocol.Https, [101], 443⟩⟩

/-- A parser that has already declared Content-Length 5 with 2 bytes seen. -/
def pDeclaredCL : Parser :=
  ⟨true, true, some ⟨5, 2⟩, false, some ⟨Protocol.Http, [101], 80⟩⟩

/-- A parser in the terminal finished state. -/
def pDone : Parser := ⟨false, false, none, true, none⟩

/-- C1: the claim states that full() holds exactly when bytes_given is at
least content_length; the source (src/http.rs line 15) compares the other
way round, so a counter that has seen 3 of 5 declared body bytes already
reports full. -/
theorem c1_full_swapped :
    ContentLength.full ⟨5, 3⟩ = true ∧
    (⟨5, 3⟩ : ContentLength).bytes_given < (⟨5, 3⟩ : ContentLength).content_length := by
  decide

/-- C8: once finished is set, modify_stream returns Ok 0 at once and
neither the buffer nor any parser field changes. -/
theorem c8_finished_noop (p : Parser) (b : Buf) (h : p.finished = true) :
    p.modify_stream b = MRes.ok p b 0 := by
  simp [Parser.modify_stream, h]

/-- Witness for c8_finished_noop at a concrete finished parser and buffer. -/
theorem c8_finished_noop_witness :
    pDone.finished = true ∧
    pDone.modify_stream (Buf.ofList [66, 67]) = MRes.ok pDone (Buf.ofList [66, 67]) 0 :=
  ⟨rfl, c8_finished_noop pDone (Buf.ofList [66, 67]) rfl⟩

/-- C9 counterexample: at the boundary index + n = L the claim promises no
panic, but the guard of the byte editor requires index + n strictly below
L, so a slice of length 2 with index 1 and n 1 reaches the out-of-bounds
branch. -/
theorem c9_boundary_counterexample :
    1 + 1 ≤ (Buf.ofList [7, 9]).size ∧ edit_in_bounds (Buf.ofList [7, 9]) 1 1 = false := by
  decide

/-- C9 amended: under the strict precondition index + n less than L, the
guard passes and remove_n_from_slice shifts the bytes after index + n left
by n leaving the last n bytes untouched, while shift_right shifts the
bytes from index up to L - n right by n leaving the first index + n bytes
untouched. -/
theorem c9_shift_spec (s : Buf) (index n : Nat) (h : index + n < s.size) :
    edit_in_bounds s index n = true ∧
    (∀ i, index ≤ i → i + n < s.size →
      (remove_n_from_slice s index n).data i = s.data (i + n)) ∧
    (∀ i, i < index → (remove_n_from_slice s index n).data i = s.data i) ∧
    (∀ i, s.size - n ≤ i → (remove_n_from_slice s index n).data i = s.data i) ∧
    (∀ i, index + n ≤ i → i < s.size → (shift_right s index n).data i = s.data (i - n)) ∧
    (∀ i, i < index + n → (shift_right s index n).data i = s.data i) := by
  have hb : edit_in_bounds s index n = true := by
    simp [edit_in_bounds]; omega
  refine ⟨hb, ?_, ?_, ?_, ?_, ?_⟩
  · intro i h1 h2
    simp only [remove_n_from_slice, hb, if_true, copyWithin]
    rw [if_pos (by omega)]
    congr 1
    omega
  · intro i h1
    simp only [remove_n_from_slice, hb, if_true, copyWithin]
    rw [if_neg (by omega)]
  · intro i h1
    simp only [remove_n_from_slice, hb, if_true, copyWithin]
    rw [if_neg (by omega)]
  · intro i h1 h2
    simp only [shift_right, hb, if_true, copyWithin]
    rw [if_pos (by omega)]
    congr 1
    omega
  · intro i h1
    simp only [shift_right, hb, if_true, copyWithin]
    rw [if_neg (by omega)]

/-- Witness for c9_shift_spec on a concrete in-bounds instance. -/
theorem c9_shift_spec_witness :
    edit_in_bounds (Buf.ofList [1, 2, 3, 4]) 1 1 = true ∧
    (remove_n_from_slice (Buf.ofList [1, 2, 3, 4]) 1 1).data 1 = (Buf.ofList [1, 2, 3, 4]).data 2 ∧
    (shift_right (Buf.ofList [1, 2, 3, 4]) 1 1).data 3 = (Buf.ofList [1, 2, 3, 4]).data 2 := by
  have h := c9_shift_spec (Buf.ofList [1, 2, 3, 4]) 1 1 (by decide)
  exact ⟨h.1, h.2.1 1 (by decide) (by decide), h.2.2.2.2.1 3 (by decide) (by decide)⟩

/-- C10: whenever modify_response reports false it has not touched the
buffer; this covers both the case where the Access-Control-Allow-Origin
literal is absent and the case where it is present but no newline follows
its value. -/
theorem c10_false_no_mutation (b : Buf) :
    ((modify_response b).1 = false → (modify_response b).2 = b) ∧
    (find_sub b corsHeaderBytes = none → (modify_response b).1 = false) ∧
    (∀ st, find_sub b corsHeaderBytes = some st →
      memchr 10 (b.dropB (st + 29)) = none → (modify_response b).1 = false) := by
  rcases hf : find_sub b corsHeaderBytes with _ | st
  · refine ⟨fun _ => ?_, fun _ => ?_, fun st hst _ => ?_⟩
    · simp [modify_response, hf]
    · simp [modify_response, hf]
    · cases hst
  · rcases hm : memchr 10 (b.dropB (st + 29)) with _ | e
    · refine ⟨fun _ => ?_, fun hn => ?_, fun st' hst' hm' => ?_⟩
      · simp [modify_response, hf, hm]
      · cases hn
      · simp [modify_response, hf, hm]
    · refine ⟨fun hfalse => ?_, fun hn => ?_, fun st' hst' hm' => ?_⟩
      · simp [modify_response, hf, hm] at hfalse
      · cases hn
      · injection hst' with hs
        subst hs
        rw [hm'] at hm
        cases hm

/-- Witness for c10_false_no_mutation on a buffer with no CORS header. -/
theorem c10_false_no_mutation_witness :
    (modify_response (Buf.ofList [65, 66])).1 = false ∧
    (modify_response (Buf.ofList [65, 66])).2 = Buf.ofList [65, 66] := by
  have h1 := (c10_false_no_mutation (Buf.ofList [65, 66])).2.1 (by decide)
  exact ⟨h1, (c10_false_no_mutation (Buf.ofList [65, 66])).1 h1⟩

/-- C5 counterexample: modify_stream takes info out of the parser at entry
and only restores it on the Ok path, so an Err return from the
Content-Length scan leaves past_heading true with info None, violating the
claimed invariant on the Err side. -/
theorem c5_counterexample :
    (pAfterHeading.modify_stream (Buf.ofList clNoCRBytes)).errOf = some Error.InvalidRequest ∧
    ((pAfterHeading.modify_stream (Buf.ofList clNoCRBytes)).parserOf).map
      (fun q => (q.past_heading, q.info.isSome)) = some (true, false) := by
  decide

/-- C5 amended: on every Ok return of modify_stream from a parser that was
not already finished, info is Some (so in particular past_heading implies
info.is_some); on Err returns the implication can fail. -/
theorem c5_ok_info_some (p : Parser) (b : Buf) (p' : Parser) (b' : Buf) (r : Nat)
    (hf : p.finished = false) (h : p.modify_stream b = MRes.ok p' b' r) :
    p'.info.isSome = true := by
  unfold Parser.modify_stream at h
  rw [hf] at h
  simp only [Bool.false_eq_true, if_false] at h
  split at h
  · simp at h
  · split at h
    · simp at h
    · simp at h
    · simp only [finishPhase] at h
      split at h
      · simp at h
      · injection h with hp hb hr
        subst hp
        simp

/-- Witness for c5_ok_info_some: a fresh parser on a complete request
returns Ok and records info. -/
theorem c5_ok_info_some_witness :
    Parser.default.finished = false ∧
    ((Parser.default.modify_stream (Buf.ofList reqCLBytes)).parserOf.getD
      Parser.default).info.isSome = true := by
  refine ⟨rfl, ?_⟩
  exact c5_ok_info_some Parser.default (Buf.ofList reqCLBytes) _ _ _ rfl rfl

/-- C3 counterexample: a request that declares Content-Length and carries
its whole body in the same buffer as the heading terminator ends the call
with a full counter (bytes_given 10, declared 1) and yet finished stays
false, because the source only finishes on a full counter when the current
buffer holds no heading terminator. -/
theorem c3_counterexample :
    (Parser.default.modify_stream (Buf.ofList reqCLBytes)).errOf = none ∧
    ((Parser.default.modify_stream (Buf.ofList reqCLBytes)).parserOf).map
      (fun q => (q.finished, q.content_len)) = some (false, some ⟨1, 10⟩) := by
  decide

/-- C3 amended: after an Ok return of the finishing step on a not yet
finished parser, finished is true exactly when either the current buffer
slice past the request line contains no heading terminator and the updated
counter exists and satisfies the source's full test (declared at least
bytes seen), or the slice does contain the terminator and no
Content-Length was ever declared. -/
theorem c3_finished_characterization (p : Parser) (info : RequestInfo) (ph : Bool)
    (b : Buf) (idx removed : Nat) (p' : Parser) (b' : Buf) (r : Nat)
    (cl' : Option ContentLength) (hf : p.finished = false)
    (h : finishPhase p info ph b idx removed = MRes.ok p' b' r)
    (hcl : get_content_len p.content_len (b.dropB idx) (headingEnd (b.dropB idx)) =
      Except.ok cl') :
    p'.finished = true ↔
      (headingEnd (b.dropB idx) = 0 ∧ ∃ c, cl' = some c ∧ c.bytes_given ≤ c.content_length) ∨
      (headingEnd (b.dropB idx) ≠ 0 ∧ cl' = none) := by
  simp only [finishPhase] at h
  rw [hcl] at h
  injection h with hp hb hr
  subst hp
  rw [hf]
  cases cl' with
  | none =>
    by_cases hhe : headingEnd (b.dropB idx) = 0 <;>
      simp [hhe, ContentLength.full]
  | some c =>
    by_cases hhe : headingEnd (b.dropB idx) = 0 <;>
      simp [hhe, ContentLength.full, ge_iff_le]

/-- Witness for c3_finished_characterization: a buffer that is just the
heading terminator with no Content-Length finishes the parser. -/
theorem c3_finished_characterization_witness :
    ((finishPhase Parser.default RequestInfo.default true (Buf.ofList crlfcrlfBytes) 0
      0).parserOf.getD Parser.default).finished = true := by
  have h := c3_finished_characterization Parser.default RequestInfo.default true
    (Buf.ofList crlfcrlfBytes) 0 0 _ _ _ none rfl rfl rfl
  exact h.mpr (Or.inr ⟨by decide, rfl⟩)

set_option maxRecDepth 8000 in
/-- C6 counterexample: an absolute URL with the explicit port 0 does not
make modify_stream return InvalidPort; the parse failure silently falls
back to the scheme default 443. -/
theorem c6_counterexample :
    (Parser.default.modify_stream (mkBuf 1024 reqPortZeroBytes)).errOf = none ∧
    (((Parser.default.modify_stream (mkBuf 1024 reqPortZeroBytes)).parserOf.getD
      Parser.default).info.map RequestInfo.port) = some 443 := by
  decide

/-- C6 amended: an empty port buffer resolves to the scheme default (80
for Http, 443 for Https); so does any port text that fails to parse as a
non-zero 16-bit value (zero, non-digits, overflow), with no error
reported; a successful parse yields that non-zero value below 65536. -/
theorem c6_port_resolution (proto : Protocol) (s : List Nat) :
    (s = [] → resolvePort proto s = defaultPort proto) ∧
    (parseNonZeroU16 s = none → resolvePort proto s = defaultPort proto) ∧
    (∀ v, parseNonZeroU16 s = some v →
      resolvePort proto s = v ∧ 0 < v ∧ v < 65536) := by
  refine ⟨?_, ?_, ?_⟩
  · intro hs
    subst hs
    rfl
  · intro hn
    unfold resolvePort
    rw [hn]
  · intro v hv
    unfold resolvePort
    rw [hv]
    have hb : 0 < v ∧ v < 65536 := by
      simp only [parseNonZeroU16] at hv
      split at hv
      next w heq =>
        simp only [parseNatBytes] at heq
        split at heq
        next hcond =>
          injection heq with heq'
          split at hv
          · cases hv
          next hw =>
            injection hv with hv2
            omega
        next => cases heq
      next => cases hv
    exact ⟨rfl, hb.1, hb.2⟩

/-- Witness for c6_port_resolution: the port text 0 resolves to the Https
default 443. -/
theorem c6_port_resolution_witness : resolvePort Protocol.Https [48] = 443 := by
  have h := (c6_port_resolution Protocol.Https [48]).2.1 (by decide)
  simpa [defaultPort] using h

/-- C7 counterexample: a parser that has already declared Content-Length 5
with 2 bytes seen processes a 4 byte buffer without the Content-Length
literal; the claim demands bytes_given to grow by 4, but the counter is
left untouched. -/
theorem c7_counterexample :
    (pDeclaredCL.modify_stream (Buf.ofList [65, 65, 65, 65])).errOf = none ∧
    ((pDeclaredCL.modify_stream (Buf.ofList [65, 65, 65, 65])).parserOf).map
      (fun q => q.content_len) = some (some ⟨5, 2⟩) := by
  decide

/-- C7 amended: the Content-Length pass leaves the stored counter
untouched whenever the buffer slice lacks the newline Content-Length
literal; only when the literal is present (and its value line parses) does
bytes_given grow by the slice length minus heading_end. -/
theorem c7_content_len_update (cl : Option ContentLength) (s : Buf) (he : Nat) :
    (find_sub s contentLengthBytes = none → get_content_len cl s he = Except.ok cl) ∧
    (∀ cl', get_content_len cl s he = Except.ok cl' →
      cl' = cl ∨ ∃ c', cl' = some c' ∧
        c'.bytes_given = (cl.getD ⟨0, 0⟩).bytes_given + (s.size - he)) := by
  refine ⟨?_, ?_⟩
  · intro hn
    simp [get_content_len, hn]
  · intro cl' h
    rcases hfind : find_sub s contentLengthBytes with _ | cidx
    · left
      simp [get_content_len, hfind] at h
      exact h.symm
    · right
      simp only [get_content_len, hfind] at h
      split at h
      · cases h
      · split at h
        · cases h
        · injection h with h'
          exact ⟨_, h'.symm, rfl⟩

/-- Witness for c7_content_len_update: a one byte buffer cannot contain
the 17 byte literal, so a declared counter passes through unchanged. -/
theorem c7_content_len_update_witness :
    get_content_len (some ⟨5, 2⟩) (Buf.ofList [65]) 0 = Except.ok (some ⟨5, 2⟩) :=
  (c7_content_len_update (some ⟨5, 2⟩) (Buf.ofList [65]) 0).1 (by decide)

set_option maxRecDepth 8000 in
/-- C2: on the S1 request in the 1024 byte read buffer, modify_stream
returns Ok 20, yet the rewritten request occupies the first 37 bytes of
the buffer (47 read + 10 grown - 20 removed): the claimed forwardable
prefix of 47 - 20 = 27 bytes cuts the request off in the middle of the
rewritten Host value, because the removed count never accounts for the
bytes the Host rewrite grew via shift_right. -/
theorem c2_s1_eval :
    (Parser.default.modify_stream bufS1).removedOf = some 20 ∧
    (Parser.default.modify_stream bufS1).bufListOf 37 = some rewrittenS1Bytes ∧
    (Parser.default.modify_stream bufS1).bufListOf 27 = some (rewrittenS1Bytes.take 27) := by
  decide

/-- C4: on the S5 response, modify_response returns true but the byte
right after the star is the newline, not the claimed carriage return
newline pair: remove_n_from_slice is called with one count too many and
collapses the carriage return together with the value bytes. -/
theorem c4_s5_eval :
    (modify_response (Buf.ofList respS5Bytes)).1 = true ∧
    (modify_response (Buf.ofList respS5Bytes)).2.extract 55 = respS5AfterBytes ∧
    (modify_response (Buf.ofList respS5Bytes)).2.data 46 = 42 ∧
    (modify_response (Buf.ofList respS5Bytes)).2.data 47 = 10 := by
  decide
